import Mathlib

/-!
Verification of the minion-tasks flow engine against its specification.

The development shallowly embeds the Python sources:
* `minion_tasks/dag.py`   — `Stage`, `TaskFlow` and its pure routing queries;
* `minion_tasks/loader.py` — raw-definition merge, inheritance resolution,
  validation and flow construction (Python dicts are modelled as association
  lists with first-match lookup, so an override entry placed in front of the
  base entries realises `\x7b**base, **override\x7d`);
* `minion_tasks/db.py`    — the task store's `transition_task`, with SQLite
  rows modelled as records and the two tables as lists in insertion order.
-/

namespace MinionTasks

/-- First-match association-list lookup; models Python `dict.get`. -/
def alookup {β : Type} (k : String) : List (String × β) → Option β
  | [] => none
  | (k', v) :: rest => if k' = k then some v else alookup k rest

/-- The `workers` field of a stage: either a flat list of eligible classes or
a mapping from a task's required class to eligible classes. -/
inductive Workers where
  | flat (classes : List String)
  | byClass (m : List (String × List String))
deriving DecidableEq

/-- One node of a flow graph (dataclass `Stage` in `dag.py`). -/
structure Stage where
  name : String
  description : String
  next : Option String := none
  fail : Option String := none
  workers : Option Workers := none
  requires : List String := []
  terminal : Bool := false
  skip : Bool := false
deriving DecidableEq

/-- A full flow graph (dataclass `TaskFlow` in `dag.py`). -/
structure TaskFlow where
  name : String
  description : String
  stages : List (String × Stage)
  dead_ends : List String := []
deriving DecidableEq

/-- `self.stages.get(name)`. -/
def TaskFlow.get (f : TaskFlow) (s : String) : Option Stage :=
  alookup s f.stages

/-- Number of stage keys not yet visited; the measure that makes the skip
recursion terminate (the Python version terminates because `seen` grows). -/
def TaskFlow.unseenKeys (f : TaskFlow) (seen : List String) : Nat :=
  ((f.stages.map Prod.fst).filter (fun k => k ∉ seen)).length

theorem alookup_mem_keys {β : Type} {k : String} {v : β} :
    ∀ {l : List (String × β)}, alookup k l = some v → k ∈ l.map Prod.fst := by
  intro l
  induction l with
  | nil => intro h; simp [alookup] at h
  | cons p rest ih =>
    intro h
    by_cases hk : p.1 = k
    · simp [hk]
    · obtain ⟨k', v'⟩ := p
      simp only [alookup] at h
      split at h
      · simp_all
      · exact List.mem_cons_of_mem _ (ih h)

theorem length_filter_cons_lt (l : List String) (a : String) (seen : List String)
    (ha : a ∈ l) (hs : a ∉ seen) :
    (l.filter (fun k => k ∉ a :: seen)).length < (l.filter (fun k => k ∉ seen)).length := by
  induction l with
  | nil => cases ha
  | cons x xs ih =>
    by_cases hxa : x = a
    · subst hxa
      have h1 : (xs.filter (fun k => k ∉ x :: seen)).length ≤
          (xs.filter (fun k => k ∉ seen)).length := by
        apply List.Sublist.length_le
        apply List.monotone_filter_right
        intro y hy
        simp only [decide_eq_true_eq, List.mem_cons, not_or] at hy ⊢
        tauto
      simp only [List.filter_cons]
      have hx1 : (decide (x ∉ x :: seen)) = false := by simp
      have hx2 : (decide (x ∉ seen)) = true := by simpa using hs
      rw [hx1, hx2]
      simpa using Nat.lt_succ_of_le h1
    · have ha' : a ∈ xs := by
        rcases List.mem_cons.mp ha with h | h
        · exact absurd h.symm hxa
        · exact h
      have ih' := ih ha'
      simp only [List.filter_cons]
      by_cases hxs : x ∈ seen
      · have h1 : (decide (x ∉ a :: seen)) = false := by
          simp [hxs]
        have h2 : (decide (x ∉ seen)) = false := by simpa using hxs
        rw [h1, h2]
        exact ih'
      · have h1 : (decide (x ∉ a :: seen)) = true := by
          simp [hxs, hxa]
        have h2 : (decide (x ∉ seen)) = true := by simpa using hxs
        rw [h1, h2]
        simpa using Nat.succ_lt_succ ih'

theorem unseenKeys_lt (f : TaskFlow) (seen : List String) (name : String) (st : Stage)
    (hmem : name ∉ seen) (hget : f.get name = some st) :
    f.unseenKeys (name :: seen) < f.unseenKeys seen := by
  exact length_filter_cons_lt _ name seen (alookup_mem_keys hget) hmem

/-- `TaskFlow._resolve_skip` with the `seen` set explicit: follow the skip
chain until a non-skipped stage or `None`; a revisited name yields `None`. -/
def TaskFlow.resolveSkipAux (f : TaskFlow) (seen : List String) :
    Option String → Option String
  | none => none
  | some name =>
    if hmem : name ∈ seen then none
    else
      match hget : f.get name with
      | none => some name
      | some st =>
        if st.skip then f.resolveSkipAux (name :: seen) st.next
        else some name
termination_by o => f.unseenKeys seen
decreasing_by exact unseenKeys_lt f seen name st hmem hget

/-- `TaskFlow._resolve_skip(stage_name)` with the default empty `seen`. -/
def TaskFlow.resolveSkip (f : TaskFlow) (o : Option String) : Option String :=
  f.resolveSkipAux [] o

/-- `TaskFlow.next_status(current, passed)`. -/
def TaskFlow.next_status (f : TaskFlow) (current : String) (passed : Bool) :
    Option String :=
  match f.get current with
  | none => none
  | some stage =>
    if stage.terminal then none
    else f.resolveSkip (if passed then stage.next else stage.fail)

/-- `TaskFlow.workers_for(status, class_required)`. -/
def TaskFlow.workers_for (f : TaskFlow) (status class_required : String) :
    Option (List String) :=
  match f.get status with
  | none => none
  | some stage =>
    match stage.workers with
    | none => none
    | some (.flat l) => some l
    | some (.byClass m) =>
      match alookup class_required m with
      | some l => some l
      | none => alookup "default" m

/-- `TaskFlow.requires(status)`. -/
def TaskFlow.requiresOf (f : TaskFlow) (status : String) : List String :=
  match f.get status with
  | none => []
  | some stage => stage.requires

/-- `TaskFlow.valid_transitions(current)`; the Python set is modelled as a
list whose membership is the set's membership.  The `if s = ""` guards model
Python truthiness of `if next_resolved:` and `if stage.fail:`. -/
def TaskFlow.valid_transitions (f : TaskFlow) (current : String) : List String :=
  match f.get current with
  | none => []
  | some stage =>
    if stage.terminal then []
    else
      let result := f.dead_ends
      let result :=
        match f.resolveSkip stage.next with
        | some s => if s = "" then result else result ++ [s]
        | none => result
      match stage.fail with
      | some s => if s = "" then result else result ++ [s]
      | none => result

/-- `TaskFlow.is_terminal(status)`. -/
def TaskFlow.is_terminal (f : TaskFlow) (status : String) : Bool :=
  match f.get status with
  | none => false
  | some stage => stage.terminal

/-- Query-result record `Transition` from `dag.py`. -/
structure FlowTransition where
  to_status : String
  eligible_classes : Option (List String)
deriving DecidableEq

/-- `TaskFlow.transition(current, class_required, passed)`. -/
def TaskFlow.transition (f : TaskFlow) (current class_required : String)
    (passed : Bool) : Option FlowTransition :=
  match f.next_status current passed with
  | none => none
  | some to_status =>
    some ⟨to_status, f.workers_for to_status class_required⟩

/-- Modelled from the spec: the repository ships its flow definitions as YAML
files (`task-flows/_base.yaml` etc.) that are not under `src/`; this is the
`base` flow as the spec describes it — chain
open→assigned→in_progress→fixed→verified→closed with `closed` terminal,
dead ends `abandoned`, `stale`, `obsolete`, failure edge fixed→assigned, and
class-keyed workers with a `default` entry on stage `fixed`. -/
def base : TaskFlow where
  name := "base"
  description := "base flow"
  dead_ends := ["abandoned", "stale", "obsolete"]
  stages :=
    [("open", { name := "open", description := "", next := some "assigned" }),
     ("assigned", { name := "assigned", description := "", next := some "in_progress" }),
     ("in_progress", { name := "in_progress", description := "", next := some "fixed",
                       requires := ["submit_result"] }),
     ("fixed", { name := "fixed", description := "", next := some "verified",
                 fail := some "assigned",
                 workers := some (.byClass [("coder", ["oracle", "recon"]),
                                            ("default", ["lead"])]) }),
     ("verified", { name := "verified", description := "", next := some "closed" }),
     ("closed", { name := "closed", description := "", terminal := true,
                  workers := some (.flat ["lead"]) })]

/-- Modelled from the spec: the `hotfix` flow — `base` with `skip = true` set
on `fixed` and `verified`, so success routing from `in_progress` collapses
two skip hops straight to `closed`. -/
def hotfix : TaskFlow where
  name := "hotfix"
  description := "hotfix flow"
  dead_ends := ["abandoned", "stale", "obsolete"]
  stages :=
    [("open", { name := "open", description := "", next := some "assigned" }),
     ("assigned", { name := "assigned", description := "", next := some "in_progress" }),
     ("in_progress", { name := "in_progress", description := "", next := some "fixed",
                       requires := ["submit_result"] }),
     ("fixed", { name := "fixed", description := "", next := some "verified",
                 fail := some "assigned", skip := true }),
     ("verified", { name := "verified", description := "", next := some "closed",
                    skip := true }),
     ("closed", { name := "closed", description := "", terminal := true,
                  workers := some (.flat ["lead"]) })]

/-- Modelled from the spec: a variant of `base` whose `fixed` stage has a
class-keyed `workers` mapping with no `default` key (the spec's third
`workersFor` example). -/
def baseNoDefault : TaskFlow where
  name := "base_no_default"
  description := "base flow without a default workers entry"
  dead_ends := ["abandoned", "stale", "obsolete"]
  stages :=
    [("fixed", { name := "fixed", description := "", next := some "verified",
                 fail := some "assigned",
                 workers := some (.byClass [("coder", ["oracle", "recon"])]) })]

/-- Test fixture for the fail-versus-skip asymmetry: stage `a` fails into the
skip stage `s`, whose chain resolves to `c`; `a`'s success edge goes to `b`. -/
def failSkipFlow : TaskFlow where
  name := "failskip"
  description := "fail target is a skip stage"
  dead_ends := []
  stages :=
    [("a", { name := "a", description := "", next := some "b", fail := some "s" }),
     ("s", { name := "s", description := "", next := some "c", skip := true }),
     ("b", { name := "b", description := "", next := some "c" }),
     ("c", { name := "c", description := "", terminal := true })]

/-! Loader model (`loader.py`): raw YAML documents, inheritance, validation. -/

/-- A raw YAML value as flow definitions use them (section 6 of the spec). -/
inductive Val where
  | vStr (s : String)
  | vBool (b : Bool)
  | vList (l : List String)
  | vMap (m : List (String × List String))
deriving DecidableEq

/-- A raw stage configuration: the YAML mapping for one stage, kept as a
first-match association list so that consing an entry in front realises a
Python dict update. -/
abbrev RawCfg := List (String × Val)

/-- A raw flow definition: the YAML document's top-level mapping, one
optional field per admissible key. -/
structure RawFlow where
  name : Option String := none
  description : Option String := none
  stages : Option (List (String × RawCfg)) := none
  inherits : Option String := none
  dead_ends : Option (List String) := none
deriving DecidableEq

/-- Python truthiness of an optional YAML value. -/
def truthy : Option Val → Bool
  | none => false
  | some (.vStr s) => !(s == "")
  | some (.vBool b) => b
  | some (.vList l) => !l.isEmpty
  | some (.vMap m) => !m.isEmpty

/-- Errors `load_flow` can raise: `notFound` is `FileNotFoundError`, the
other constructors are the `ValueError` (validation) cases. -/
inductive LoadErr where
  | notFound (name : String)
  | missingKeys (flow : String) (keys : List String)
  | noStages (flow : String)
  | missingNext (flow : String) (stage : String)
deriving DecidableEq

/-- `_merge_stages(base_stages, override_stages)`: per-stage field-level
merge; an override stage's entries are placed in front of the base stage's
entries, which under first-match lookup is Python's per-stage dict merge. -/
def mergeStages (baseStages : List (String × RawCfg))
    (overrideStages : Option (List (String × RawCfg))) : List (String × RawCfg) :=
  match overrideStages with
  | none => baseStages
  | some ov =>
    if ov.isEmpty then baseStages
    else
      baseStages.map (fun p =>
        match alookup p.1 ov with
        | some oc => (p.1, oc ++ p.2)
        | none => p) ++
      ov.filter (fun q => (alookup q.1 baseStages).isNone)

/-- The top-level dict update of `_resolve_inheritance`: child keys win,
`stages` is always set to the per-stage merge, `inherits` is popped. -/
def mergeRaw (parent child : RawFlow) : RawFlow where
  name := child.name <|> parent.name
  description := child.description <|> parent.description
  stages := some (mergeStages (parent.stages.getD []) child.stages)
  inherits := none
  dead_ends := child.dead_ends <|> parent.dead_ends

/-- `_resolve_inheritance(raw, flows_dir)`: the flows directory is the
opaque mapping `env` from file stem to raw definition.  The Python function
recurses with no cycle guard; `fuel` bounds the model's recursion depth and
a `none` result means the computation did not finish within `fuel` — a value
that is `none` for every fuel is a computation that never terminates. -/
def resolveInheritance (env : List (String × RawFlow)) :
    Nat → RawFlow → Option (Except LoadErr RawFlow)
  | 0, _ => none
  | fuel + 1, raw =>
    match raw.inherits with
    | none => some (.ok raw)
    | some parent_name =>
      if parent_name = "" then some (.ok raw)
      else
        match alookup parent_name env with
        | none => some (.error (.notFound parent_name))
        | some parentRaw =>
          match resolveInheritance env fuel parentRaw with
          | none => none
          | some (.error e) => some (.error e)
          | some (.ok parentResolved) => some (.ok (mergeRaw parentResolved raw))

/-- The required-keys check of `_validate`: which of `REQUIRED_TOP_KEYS` are
absent from the raw document. -/
def missingTopKeys (raw : RawFlow) : List String :=
  (if raw.name.isNone then ["name"] else []) ++
  (if raw.description.isNone then ["description"] else []) ++
  (if raw.stages.isNone then ["stages"] else [])

/-- The per-stage loop of `_validate`: a stage that is neither truthy-`skip`
nor truthy-`terminal` must have a `next` key. -/
def validateStages (flow : String) : List (String × RawCfg) → Except LoadErr Unit
  | [] => .ok ()
  | (stage_name, cfg) :: rest =>
    if truthy (alookup "skip" cfg) then validateStages flow rest
    else if truthy (alookup "terminal" cfg) then validateStages flow rest
    else if (alookup "next" cfg).isNone then .error (.missingNext flow stage_name)
    else validateStages flow rest

/-- `_validate(raw, name)`. -/
def validate (raw : RawFlow) (name : String) : Except LoadErr Unit :=
  if missingTopKeys raw ≠ [] then .error (.missingKeys name (missingTopKeys raw))
  else
    let stages := raw.stages.getD []
    if stages.isEmpty then .error (.noStages name)
    else validateStages name stages

/-- Read a string-valued key of a stage configuration (YAML values assumed
well-typed per the definition-source format). -/
def getStr (cfg : RawCfg) (k : String) : Option String :=
  match alookup k cfg with
  | some (.vStr s) => some s
  | _ => none

/-- Read a string-list-valued key of a stage configuration. -/
def getStrList (cfg : RawCfg) (k : String) : Option (List String) :=
  match alookup k cfg with
  | some (.vList l) => some l
  | _ => none

/-- Read the `workers` key: a flat list or a class-keyed mapping. -/
def getWorkers (cfg : RawCfg) : Option Workers :=
  match alookup "workers" cfg with
  | some (.vList l) => some (.flat l)
  | some (.vMap m) => some (.byClass m)
  | _ => none

/-- `_build_stage(name, cfg)`. -/
def buildStage (name : String) (cfg : RawCfg) : Stage where
  name := name
  description := (getStr cfg "description").getD ""
  next := getStr cfg "next"
  fail := getStr cfg "fail"
  workers := getWorkers cfg
  requires := (getStrList cfg "requires").getD []
  terminal := truthy (alookup "terminal" cfg)
  skip := truthy (alookup "skip" cfg)

/-- Assembling the `TaskFlow` at the end of `load_flow`. -/
def buildFlow (raw : RawFlow) : TaskFlow where
  name := raw.name.getD ""
  description := raw.description.getD ""
  stages := (raw.stages.getD []).map (fun p => (p.1, buildStage p.1 p.2))
  dead_ends := raw.dead_ends.getD []

/-- The file-stem naming rule of `load_flow`: the packaged base flow lives in
`_base.yaml`, every other flow in `<name>.yaml`. -/
def flowFileStem (task_type : String) : String :=
  if task_type = "base" then "_base" else task_type

/-- `load_flow(task_type, flows_dir)` over the opaque definition source
`env`; a `none` result again models non-termination within `fuel`. -/
def load_flow (env : List (String × RawFlow)) (fuel : Nat) (task_type : String) :
    Option (Except LoadErr TaskFlow) :=
  match alookup (flowFileStem task_type) env with
  | none => some (.error (.notFound task_type))
  | some raw =>
    match resolveInheritance env fuel raw with
    | none => none
    | some (.error e) => some (.error e)
    | some (.ok merged) =>
      match validate merged task_type with
      | .error e => some (.error e)
      | .ok _ => some (.ok (buildFlow merged))

/-- A stage configuration the validator must reject: neither truthy `skip`
nor truthy `terminal`, and no `next` key. -/
def stageLacksNext (cfg : RawCfg) : Prop :=
  truthy (alookup "skip" cfg) = false ∧ truthy (alookup "terminal" cfg) = false ∧
    alookup "next" cfg = none

/-- A self-inheriting flow definition: `a.yaml` declaring `inherits: a`. -/
def cyclicRaw : RawFlow where
  name := some "a"
  description := some "cyclic"
  stages := some []
  inherits := some "a"

/-- A flows directory containing only the self-inheriting definition. -/
def cyclicEnv : List (String × RawFlow) := [("a", cyclicRaw)]

/-- A definition with all required keys, no inheritance and an empty stage
mapping. -/
def emptyStagesRaw : RawFlow where
  name := some "empty"
  description := some "no stages"
  stages := some []

/-- A flows directory containing only `emptyStagesRaw`. -/
def emptyStagesEnv : List (String × RawFlow) := [("empty", emptyStagesRaw)]

/-! Task store model (`db.py`): the rows `transition_task` reads and
writes.  Timestamps and the warning side channel are not modelled; the
loader call is the opaque mapping `flows` from task type to loaded flow. -/

/-- A row of the `tasks` table. -/
structure TaskRow where
  id : String
  project_id : String
  task_type : String
  description : String
  file_path : Option String := none
  status : String := "open"
  class_required : Option String := none
  assigned_to : Option String := none
deriving DecidableEq

/-- A row of the `transitions` audit table. -/
structure TransitionRow where
  task_id : String
  from_status : String
  to_status : String
  agent : Option String
  valid : Nat
deriving DecidableEq

/-- The two mutable tables, each in insertion order. -/
structure DBState where
  tasks : List TaskRow
  transitions : List TransitionRow
deriving DecidableEq

/-- `get_task(id)`: first row of `tasks` with the given id. -/
def get_task (db : DBState) (id : String) : Option TaskRow :=
  db.tasks.find? (fun t => t.id == id)

/-- `TaskDB.transition_task(task_id, to_status, agent)`: update the task's
status (and, via COALESCE, its assignee) and append one audit record whose
`valid` flag records membership of the target in `valid_transitions`; the
Python warning on an invalid target is a side channel with no state
effect. -/
def transition_task (flows : List (String × TaskFlow)) (db : DBState)
    (task_id to_status : String) (agent : Option String) :
    Except String DBState :=
  match get_task db task_id with
  | none => .error "task not found"
  | some task =>
    match alookup task.task_type flows with
    | none => .error "task flow not found"
    | some flow =>
      let is_valid := to_status ∈ flow.valid_transitions task.status
      .ok { tasks := db.tasks.map (fun t =>
              if t.id == task_id then
                { t with status := to_status,
                         assigned_to := agent <|> t.assigned_to }
              else t),
            transitions := db.transitions ++
              [{ task_id := task_id, from_status := task.status,
                 to_status := to_status, agent := agent,
                 valid := if is_valid then 1 else 0 }] }

/-- A one-task database used to instantiate the transition theorem. -/
def dbW : DBState :=
  ⟨[{ id := "T1", project_id := "P1", task_type := "bugfix",
      description := "d" }], []⟩

/-- A flows mapping binding the task type `bugfix` to the base flow. -/
def flowsW : List (String × TaskFlow) := [("bugfix", base)]

theorem resolveSkipAux_none (f : TaskFlow) (seen : List String) :
    f.resolveSkipAux seen none = none := by
  simp [TaskFlow.resolveSkipAux]

theorem resolveSkipAux_some (f : TaskFlow) (seen : List String) (name : String) :
    f.resolveSkipAux seen (some name) =
      if name ∈ seen then none
      else
        match f.get name with
        | none => some name
        | some st =>
          if st.skip then f.resolveSkipAux (name :: seen) st.next else some name := by
  rw [TaskFlow.resolveSkipAux]
  by_cases h : name ∈ seen
  · simp [h]
  · simp only [h, dite_false]
    split <;> rename_i heq <;> simp [heq]

/-- Every value `_resolve_skip` can return is `None`, an unknown stage name,
or the name of a stage that is not marked `skip`. -/
theorem resolveSkipAux_resolved (f : TaskFlow) (seen : List String) (o : Option String) :
    f.resolveSkipAux seen o = none ∨
      ∃ t, f.resolveSkipAux seen o = some t ∧
        (f.get t = none ∨ ∃ st, f.get t = some st ∧ st.skip = false) := by
  induction seen, o using TaskFlow.resolveSkipAux.induct f with
  | case1 seen => left; exact resolveSkipAux_none f seen
  | case2 seen name hmem => left; simp [resolveSkipAux_some, hmem]
  | case3 seen name hmem hget =>
    right; exact ⟨name, by simp [resolveSkipAux_some, hmem, hget], Or.inl hget⟩
  | case4 seen name hmem st hget hskip ih =>
    rw [show f.resolveSkipAux seen (some name) = f.resolveSkipAux (name :: seen) st.next by
      simp [resolveSkipAux_some, hmem, hget, hskip]]
    exact ih
  | case5 seen name hmem st hget hskip =>
    right
    refine ⟨name, by simp [resolveSkipAux_some, hmem, hget, hskip], Or.inr ⟨st, hget, ?_⟩⟩
    simpa using hskip

theorem resolveSkip_resolved (f : TaskFlow) (o : Option String) :
    f.resolveSkip o = none ∨
      ∃ t, f.resolveSkip o = some t ∧
        (f.get t = none ∨ ∃ st, f.get t = some st ∧ st.skip = false) :=
  resolveSkipAux_resolved f [] o

/-- Membership in `valid_transitions` for a known, non-terminal stage: a dead
end, the truthy skip-resolved `next`, or the truthy raw `fail`. -/
theorem mem_valid_transitions (f : TaskFlow) (current : String) (st : Stage)
    (hget : f.get current = some st) (hterm : st.terminal = false) (x : String) :
    x ∈ f.valid_transitions current ↔
      x ∈ f.dead_ends ∨ (f.resolveSkip st.next = some x ∧ x ≠ "") ∨
        (st.fail = some x ∧ x ≠ "") := by
  unfold TaskFlow.valid_transitions
  rw [hget]
  simp only [hterm, if_false, Bool.false_eq_true]
  rcases hn : f.resolveSkip st.next with _ | s <;> rcases hf : st.fail with _ | t <;>
    simp only [hn, hf] <;>
    [skip; split; split; (split <;> split)] <;>
    simp_all [List.mem_append] <;>
    aesop

/-- C1: `next_status(current, passed)` returns none when `current` is not a
stage of the flow or its stage is terminal; otherwise it selects `next` when
passed and `fail` when not, returns none when the selected field is absent,
and otherwise the skip-resolution of the target; on the base flow
`in_progress`+pass resolves to `fixed`, `fixed`+fail to `assigned`, and
`closed` to none. -/
theorem nextStatus_spec :
    (∀ (f : TaskFlow) (current : String) (passed : Bool),
        f.get current = none → f.next_status current passed = none) ∧
    (∀ (f : TaskFlow) (current : String) (st : Stage) (passed : Bool),
        f.get current = some st → st.terminal = true →
          f.next_status current passed = none) ∧
    (∀ (f : TaskFlow) (current : String) (st : Stage),
        f.get current = some st → st.terminal = false →
          (st.next = none → f.next_status current true = none) ∧
          (∀ t, st.next = some t →
            f.next_status current true = f.resolveSkip (some t)) ∧
          (st.fail = none → f.next_status current false = none) ∧
          (∀ t, st.fail = some t →
            f.next_status current false = f.resolveSkip (some t))) ∧
    base.next_status "in_progress" true = some "fixed" ∧
    base.next_status "fixed" false = some "assigned" ∧
    base.next_status "closed" true = none := by
  refine ⟨?_, ?_, ?_, ?_, ?_, ?_⟩
  · intro f current passed h
    unfold TaskFlow.next_status
    rw [h]
  · intro f current st passed hget hterm
    unfold TaskFlow.next_status
    rw [hget]
    simp [hterm]
  · intro f current st hget hterm
    refine ⟨?_, ?_, ?_, ?_⟩ <;>
      [intro h; intro t h; intro h; intro t h] <;>
      unfold TaskFlow.next_status <;> rw [hget] <;>
      simp [hterm, h, TaskFlow.resolveSkip, resolveSkipAux_none]
  · simp [TaskFlow.next_status, TaskFlow.get, TaskFlow.resolveSkip,
      resolveSkipAux_some, base, alookup]
  · simp [TaskFlow.next_status, TaskFlow.get, TaskFlow.resolveSkip,
      resolveSkipAux_some, base, alookup]
  · simp [TaskFlow.next_status, TaskFlow.get, base, alookup]

/-- C2: `valid_transitions(current)` is empty for an unknown or terminal
stage, and otherwise consists exactly of the flow's dead ends, the (truthy)
skip-resolved `next` target, and the (truthy) raw `fail` target; on the base
flow `valid_transitions("assigned")` is the set consisting of in_progress,
abandoned, stale and obsolete. -/
theorem validTransitions_spec :
    (∀ (f : TaskFlow) (current : String),
        f.get current = none → f.valid_transitions current = []) ∧
    (∀ (f : TaskFlow) (current : String) (st : Stage),
        f.get current = some st → st.terminal = true →
          f.valid_transitions current = []) ∧
    (∀ (f : TaskFlow) (current : String) (st : Stage),
        f.get current = some st → st.terminal = false →
          ∀ x, x ∈ f.valid_transitions current ↔
            x ∈ f.dead_ends ∨ (f.resolveSkip st.next = some x ∧ x ≠ "") ∨
              (st.fail = some x ∧ x ≠ "")) ∧
    (∀ x, x ∈ base.valid_transitions "assigned" ↔
        x = "in_progress" ∨ x = "abandoned" ∨ x = "stale" ∨ x = "obsolete") := by
  refine ⟨?_, ?_, ?_, ?_⟩
  · intro f current h
    unfold TaskFlow.valid_transitions
    rw [h]
  · intro f current st hget hterm
    unfold TaskFlow.valid_transitions
    rw [hget]
    simp [hterm]
  · exact fun f current st hget hterm x => mem_valid_transitions f current st hget hterm x
  · have hval : base.valid_transitions "assigned" =
        ["abandoned", "stale", "obsolete", "in_progress"] := by
      simp [TaskFlow.valid_transitions, base, TaskFlow.get, alookup,
        TaskFlow.resolveSkip, resolveSkipAux_some]
    intro x
    rw [hval]
    simp
    tauto

/-- C5: `workers_for(status, class_required)` is none for an unknown stage or
an absent `workers` field, a flat workers list is returned verbatim, and a
class-keyed mapping yields the entry for the required class, else the
`default` entry, else none; with the base flow's workers on `fixed`,
`coder` maps to oracle/recon, `pilot` falls to the default lead, and with no
`default` key the result is none. -/
theorem workersFor_spec :
    (∀ (f : TaskFlow) (s c : String), f.get s = none → f.workers_for s c = none) ∧
    (∀ (f : TaskFlow) (s c : String) (st : Stage),
        f.get s = some st → st.workers = none → f.workers_for s c = none) ∧
    (∀ (f : TaskFlow) (s c : String) (st : Stage) (l : List String),
        f.get s = some st → st.workers = some (.flat l) →
          f.workers_for s c = some l) ∧
    (∀ (f : TaskFlow) (s c : String) (st : Stage)
        (m : List (String × List String)) (l : List String),
        f.get s = some st → st.workers = some (.byClass m) → alookup c m = some l →
          f.workers_for s c = some l) ∧
    (∀ (f : TaskFlow) (s c : String) (st : Stage) (m : List (String × List String)),
        f.get s = some st → st.workers = some (.byClass m) → alookup c m = none →
          f.workers_for s c = alookup "default" m) ∧
    base.workers_for "fixed" "coder" = some ["oracle", "recon"] ∧
    base.workers_for "fixed" "pilot" = some ["lead"] ∧
    baseNoDefault.workers_for "fixed" "pilot" = none := by
  refine ⟨?_, ?_, ?_, ?_, ?_, ?_, ?_, ?_⟩
  · intro f s c h
    unfold TaskFlow.workers_for
    rw [h]
  · intro f s c st hget hw
    unfold TaskFlow.workers_for
    simp [hget, hw]
  · intro f s c st l hget hw
    unfold TaskFlow.workers_for
    simp [hget, hw]
  · intro f s c st m l hget hw hl
    unfold TaskFlow.workers_for
    simp [hget, hw, hl]
  · intro f s c st m hget hw hl
    unfold TaskFlow.workers_for
    simp [hget, hw, hl]
  · simp [TaskFlow.workers_for, base, TaskFlow.get, alookup]
  · simp [TaskFlow.workers_for, base, TaskFlow.get, alookup]
  · simp [TaskFlow.workers_for, baseNoDefault, TaskFlow.get, alookup]

/-- C6: for every stage marked `skip`, skip resolution never returns that
stage's own name: the result is none, or a different name that is unknown or
names a non-skip stage. -/
theorem resolveSkip_not_self (f : TaskFlow) (s : String) (st : Stage)
    (hget : f.get s = some st) (hskip : st.skip = true) :
    f.resolveSkip (some s) ≠ some s ∧
      (∀ t, f.resolveSkip (some s) = some t →
        t ≠ s ∧ (f.get t = none ∨ ∃ st', f.get t = some st' ∧ st'.skip = false)) := by
  have key : ∀ t, f.resolveSkip (some s) = some t →
      t ≠ s ∧ (f.get t = none ∨ ∃ st', f.get t = some st' ∧ st'.skip = false) := by
    intro t ht
    rcases resolveSkip_resolved f (some s) with h | ⟨t', ht', hres⟩
    · rw [h] at ht; cases ht
    · rw [ht'] at ht
      injection ht with ht
      subst ht
      refine ⟨?_, hres⟩
      rintro rfl
      rcases hres with hu | ⟨st', hst', hskip'⟩
      · rw [hget] at hu; cases hu
      · rw [hget] at hst'
        injection hst' with hst'
        subst hst'
        rw [hskip] at hskip'
        cases hskip'
  exact ⟨fun hcontra => ((key s hcontra).1 rfl).elim, key⟩

/-- C6 witness: in the hotfix flow, `fixed` is a skip stage and its skip
resolution is not `fixed` itself. -/
theorem resolveSkip_not_self_witness :
    hotfix.resolveSkip (some "fixed") ≠ some "fixed" :=
  (resolveSkip_not_self hotfix "fixed"
    { name := "fixed", description := "", next := some "verified",
      fail := some "assigned", skip := true } rfl rfl).1

/-- C7: skip resolution is idempotent: applying `resolveSkip` to an
already-resolved value is a no-op (this holds for every input, cyclic skip
chains included, since a cyclic chain resolves to none). -/
theorem resolveSkip_idempotent :
    ∀ (f : TaskFlow) (x : Option String),
      f.resolveSkip (f.resolveSkip x) = f.resolveSkip x := by
  intro f x
  rcases resolveSkip_resolved f x with h | ⟨t, ht, hres⟩
  · rw [h]
    exact resolveSkipAux_none f []
  · rw [ht]
    unfold TaskFlow.resolveSkip
    rw [resolveSkipAux_some]
    rcases hres with hu | ⟨st, hst, hskip⟩
    · simp [hu]
    · simp [hst, hskip]

/-- C10: `next_status` skip-resolves the fail target while
`valid_transitions` reports the raw fail target, so when a stage's fail
target is a skip stage resolving to a different name that is neither a dead
end nor the resolved next target, the status reached on failure lies outside
the reported valid-transition set. -/
theorem fail_skip_asymmetry (f : TaskFlow) (current : String) (st : Stage)
    (fl r : String) (flst : Stage)
    (hget : f.get current = some st) (hterm : st.terminal = false)
    (hfail : st.fail = some fl) (hflst : f.get fl = some flst)
    (hskip : flst.skip = true)
    (hres : f.resolveSkip (some fl) = some r) (hne : r ≠ fl)
    (hdead : r ∉ f.dead_ends)
    (hnext : f.resolveSkip st.next ≠ some r) :
    f.next_status current false = some r ∧ r ∉ f.valid_transitions current := by
  constructor
  · unfold TaskFlow.next_status
    rw [hget]
    simp only [hterm, Bool.false_eq_true, if_false]
    rw [hfail]
    exact hres
  · rw [mem_valid_transitions f current st hget hterm r]
    rintro (h | ⟨h1, _⟩ | ⟨h1, _⟩)
    · exact hdead h
    · exact hnext h1
    · rw [hfail] at h1
      injection h1 with h1
      exact hne h1.symm

theorem alookup_append_some {β : Type} {k : String} {v : β}
    {l1 : List (String × β)} (l2 : List (String × β)) (h : alookup k l1 = some v) :
    alookup k (l1 ++ l2) = some v := by
  induction l1 with
  | nil => simp [alookup] at h
  | cons p rest ih =>
    obtain ⟨k', v'⟩ := p
    by_cases hk : k' = k <;> simp_all [alookup]

theorem alookup_append_none {β : Type} {k : String}
    {l1 : List (String × β)} (l2 : List (String × β)) (h : alookup k l1 = none) :
    alookup k (l1 ++ l2) = alookup k l2 := by
  induction l1 with
  | nil => rfl
  | cons p rest ih =>
    obtain ⟨k', v'⟩ := p
    by_cases hk : k' = k <;> simp_all [alookup]

/-- Lookup through the per-stage merge map of `_merge_stages`. -/
theorem alookup_mergeMap (bs ov : List (String × RawCfg)) (n : String) :
    alookup n (bs.map (fun p =>
        match alookup p.1 ov with
        | some oc => (p.1, oc ++ p.2)
        | none => p)) =
      (alookup n bs).map (fun bc =>
        match alookup n ov with
        | some oc => oc ++ bc
        | none => bc) := by
  induction bs with
  | nil => rfl
  | cons p rest ih =>
    obtain ⟨k, v⟩ := p
    by_cases hk : k = n
    · subst hk
      rcases h : alookup k ov with _ | oc <;> simp [alookup, h]
    · rcases h : alookup k ov with _ | oc <;> simp [alookup, hk, h, ih]

/-- Lookup of a key absent from the base through the added-stages filter of
`_merge_stages`. -/
theorem alookup_filter_base_none (bs ov : List (String × RawCfg)) (n : String)
    (h : alookup n bs = none) :
    alookup n (ov.filter (fun q => (alookup q.1 bs).isNone)) = alookup n ov := by
  induction ov with
  | nil => rfl
  | cons q rest ih =>
    obtain ⟨k, v⟩ := q
    by_cases hk : k = n
    · subst hk
      simp [List.filter_cons, h, alookup]
    · by_cases hkeep : (alookup k bs).isNone = true <;>
        simp [List.filter_cons, hkeep, alookup, hk, ih]

/-- C4: inheritance merge is field-level per stage.  For a stage present in
both parent and child the merged entry is the child's fields in front of the
parent's, so a field set by the child replaces the parent's and a field
absent from the child is preserved; stages only in the parent are kept
verbatim, stages only in the child are added; and a child override that
consists only of `workers` leaves `next`, `fail` and `terminal` at the
parent's values. -/
theorem mergeStages_spec :
    (∀ (bs ov : List (String × RawCfg)) (n : String) (bc oc : RawCfg),
        alookup n bs = some bc → alookup n ov = some oc →
          alookup n (mergeStages bs (some ov)) = some (oc ++ bc)) ∧
    (∀ (oc bc : RawCfg) (k : String) (v : Val),
        alookup k oc = some v → alookup k (oc ++ bc) = some v) ∧
    (∀ (oc bc : RawCfg) (k : String),
        alookup k oc = none → alookup k (oc ++ bc) = alookup k bc) ∧
    (∀ (bs ov : List (String × RawCfg)) (n : String) (bc : RawCfg),
        alookup n bs = some bc → alookup n ov = none →
          alookup n (mergeStages bs (some ov)) = some bc) ∧
    (∀ (bs ov : List (String × RawCfg)) (n : String) (oc : RawCfg),
        alookup n bs = none → alookup n ov = some oc →
          alookup n (mergeStages bs (some ov)) = some oc) ∧
    (∀ (bs ov : List (String × RawCfg)) (n : String) (bc : RawCfg) (w : Val),
        alookup n bs = some bc → alookup n ov = some [("workers", w)] →
          ∃ mc, alookup n (mergeStages bs (some ov)) = some mc ∧
            alookup "workers" mc = some w ∧
            alookup "next" mc = alookup "next" bc ∧
            alookup "fail" mc = alookup "fail" bc ∧
            alookup "terminal" mc = alookup "terminal" bc) := by
  have hboth : ∀ (bs ov : List (String × RawCfg)) (n : String) (bc oc : RawCfg),
      alookup n bs = some bc → alookup n ov = some oc →
        alookup n (mergeStages bs (some ov)) = some (oc ++ bc) := by
    intro bs ov n bc oc hb ho
    rcases ov with _ | ⟨q, rest⟩
    · simp [alookup] at ho
    · unfold mergeStages
      simp only [List.isEmpty_cons, if_false, Bool.false_eq_true]
      rw [alookup_append_some]
      rw [alookup_mergeMap, hb]
      simp [ho]
  refine ⟨hboth, ?_, ?_, ?_, ?_, ?_⟩
  · intro oc bc k v h
    exact alookup_append_some bc h
  · intro oc bc k h
    exact alookup_append_none bc h
  · intro bs ov n bc hb ho
    rcases ov with _ | ⟨q, rest⟩
    · simpa [mergeStages, alookup] using hb
    · unfold mergeStages
      simp only [List.isEmpty_cons, if_false, Bool.false_eq_true]
      rw [alookup_append_some]
      rw [alookup_mergeMap, hb]
      simp [ho]
  · intro bs ov n oc hb ho
    rcases ov with _ | ⟨q, rest⟩
    · simp [alookup] at ho
    · unfold mergeStages
      simp only [List.isEmpty_cons, if_false, Bool.false_eq_true]
      rw [alookup_append_none]
      · rw [alookup_filter_base_none _ _ _ hb]
        exact ho
      · rw [alookup_mergeMap, hb]
        rfl
  · intro bs ov n bc w hb ho
    refine ⟨[("workers", w)] ++ bc, hboth bs ov n bc [("workers", w)] hb ho, ?_, ?_, ?_, ?_⟩ <;>
      simp [alookup]

/-- C3: the loader's inheritance resolution has no cycle check.  On the
self-inheriting definition `a` it yields no result at any recursion depth —
the Python code recurses until the interpreter's stack limit — instead of
failing fast with a validation error naming the revisited parent as the
claim requires. -/
theorem resolveInheritance_cyclic_diverges :
    (∀ fuel : Nat, resolveInheritance cyclicEnv fuel cyclicRaw = none) ∧
    (∀ fuel : Nat, load_flow cyclicEnv fuel "a" = none) := by
  have h : ∀ fuel : Nat, resolveInheritance cyclicEnv fuel cyclicRaw = none := by
    intro fuel
    induction fuel with
    | zero => rfl
    | succ n ih =>
      unfold resolveInheritance
      simp [show cyclicRaw.inherits = some "a" from rfl,
        show alookup "a" cyclicEnv = some cyclicRaw from rfl, ih]
  refine ⟨h, fun fuel => ?_⟩
  unfold load_flow
  simp [flowFileStem, show alookup "a" cyclicEnv = some cyclicRaw from rfl, h fuel]

/-- The stage-validation loop errors, naming the flow and an offending
stage, exactly when some stage is neither truthy-skip nor truthy-terminal
and lacks `next`. -/
theorem validateStages_error_of_bad (flow : String) :
    ∀ ss : List (String × RawCfg), (∃ p ∈ ss, stageLacksNext p.2) →
      ∃ sn, validateStages flow ss = .error (.missingNext flow sn) ∧
        ∃ cfg, (sn, cfg) ∈ ss ∧ stageLacksNext cfg := by
  intro ss
  induction ss with
  | nil => rintro ⟨p, hp, _⟩; cases hp
  | cons q rest ih =>
    rintro ⟨p, hp, hbad⟩
    obtain ⟨k, cfg⟩ := q
    by_cases h1 : truthy (alookup "skip" cfg) = true
    · have hrest : ∃ p ∈ rest, stageLacksNext p.2 := by
        rcases List.mem_cons.mp hp with heq | hmem
        · exfalso; rw [heq] at hbad; rw [hbad.1] at h1; cases h1
        · exact ⟨p, hmem, hbad⟩
      obtain ⟨sn, hval, cfg', hmem', hbad'⟩ := ih hrest
      exact ⟨sn, by simp [validateStages, h1, hval], cfg',
        List.mem_cons_of_mem _ hmem', hbad'⟩
    · by_cases h2 : truthy (alookup "terminal" cfg) = true
      · have hrest : ∃ p ∈ rest, stageLacksNext p.2 := by
          rcases List.mem_cons.mp hp with heq | hmem
          · exfalso; rw [heq] at hbad; rw [hbad.2.1] at h2; cases h2
          · exact ⟨p, hmem, hbad⟩
        obtain ⟨sn, hval, cfg', hmem', hbad'⟩ := ih hrest
        exact ⟨sn, by simp [validateStages, h1, h2, hval], cfg',
          List.mem_cons_of_mem _ hmem', hbad'⟩
      · by_cases h3 : (alookup "next" cfg).isNone = true
        · refine ⟨k, by simp [validateStages, h1, h2, h3], cfg, List.mem_cons_self _ _,
            ?_, ?_, ?_⟩
          · simpa using h1
          · simpa using h2
          · simpa [Option.isNone_iff_eq_none] using h3
        · have hrest : ∃ p ∈ rest, stageLacksNext p.2 := by
            rcases List.mem_cons.mp hp with heq | hmem
            · exfalso
              rw [heq] at hbad
              rw [hbad.2.2] at h3
              simp at h3
            · exact ⟨p, hmem, hbad⟩
          obtain ⟨sn, hval, cfg', hmem', hbad'⟩ := ih hrest
          exact ⟨sn, by simp [validateStages, h1, h2, h3, hval], cfg',
            List.mem_cons_of_mem _ hmem', hbad'⟩

/-- C8 counterexample: the definition `empty` is present in the flows
directory, has every required top-level key, declares no inheritance and has
no stage at all (so no stage lacking `next`), yet `load_flow` raises the
empty-stage-set `ValidationError` instead of returning a Flow. -/
theorem load_flow_empty_stages_counterexample :
    (alookup (flowFileStem "empty") emptyStagesEnv).isSome = true ∧
    missingTopKeys emptyStagesRaw = [] ∧
    emptyStagesRaw.inherits = none ∧
    emptyStagesRaw.stages = some [] ∧
    load_flow emptyStagesEnv 1 "empty" =
      some (.error (.noStages "empty")) := by
  refine ⟨rfl, rfl, rfl, rfl, ?_⟩
  rfl

/-- C8 (amended): `load_flow` fails with `NotFound` when no definition file
exists for the requested name, with `NotFound` naming the parent when a
declared `inherits` parent has no definition file, and after merging fails
with a `ValidationError` listing the missing required top-level keys, a
`ValidationError` naming the flow when the merged stage mapping is empty, or
a `ValidationError` naming the flow and the stage when a stage that is
neither truthy-terminal nor truthy-skip does not declare `next`; otherwise
it returns the built Flow. -/
theorem load_flow_spec :
    (∀ (env : List (String × RawFlow)) (fuel : Nat) (t : String),
        alookup (flowFileStem t) env = none →
          load_flow env fuel t = some (.error (.notFound t))) ∧
    (∀ (env : List (String × RawFlow)) (fuel : Nat) (t : String)
        (raw : RawFlow) (p : String),
        alookup (flowFileStem t) env = some raw →
          raw.inherits = some p → p ≠ "" → alookup p env = none →
          load_flow env (fuel + 1) t = some (.error (.notFound p))) ∧
    (∀ (env : List (String × RawFlow)) (fuel : Nat) (t : String)
        (raw merged : RawFlow),
        alookup (flowFileStem t) env = some raw →
          resolveInheritance env fuel raw = some (.ok merged) →
          missingTopKeys merged ≠ [] →
          load_flow env fuel t =
            some (.error (.missingKeys t (missingTopKeys merged)))) ∧
    (∀ (env : List (String × RawFlow)) (fuel : Nat) (t : String)
        (raw merged : RawFlow),
        alookup (flowFileStem t) env = some raw →
          resolveInheritance env fuel raw = some (.ok merged) →
          missingTopKeys merged = [] → merged.stages.getD [] = [] →
          load_flow env fuel t = some (.error (.noStages t))) ∧
    (∀ (env : List (String × RawFlow)) (fuel : Nat) (t : String)
        (raw merged : RawFlow) (ss : List (String × RawCfg)),
        alookup (flowFileStem t) env = some raw →
          resolveInheritance env fuel raw = some (.ok merged) →
          missingTopKeys merged = [] → merged.stages = some ss → ss ≠ [] →
          (∃ p ∈ ss, stageLacksNext p.2) →
          ∃ sn, load_flow env fuel t = some (.error (.missingNext t sn)) ∧
            ∃ cfg, (sn, cfg) ∈ ss ∧ stageLacksNext cfg) ∧
    (∀ (env : List (String × RawFlow)) (fuel : Nat) (t : String)
        (raw merged : RawFlow),
        alookup (flowFileStem t) env = some raw →
          resolveInheritance env fuel raw = some (.ok merged) →
          validate merged t = .ok () →
          load_flow env fuel t = some (.ok (buildFlow merged))) := by
  refine ⟨?_, ?_, ?_, ?_, ?_, ?_⟩
  · intro env fuel t h
    unfold load_flow
    rw [h]
  · intro env fuel t raw p hraw hinh hp hpar
    unfold load_flow
    simp only [hraw]
    unfold resolveInheritance
    simp [hinh, hp, hpar]
  · intro env fuel t raw merged hraw hres hmiss
    unfold load_flow
    simp only [hraw, hres]
    simp [validate, hmiss]
  · intro env fuel t raw merged hraw hres hmiss hempty
    unfold load_flow
    simp only [hraw, hres]
    simp [validate, hmiss, hempty]
  · intro env fuel t raw merged ss hraw hres hmiss hss hne hbad
    obtain ⟨sn, hval, cfg, hmem, hlacks⟩ := validateStages_error_of_bad t ss hbad
    refine ⟨sn, ?_, cfg, hmem, hlacks⟩
    unfold load_flow
    simp only [hraw, hres]
    rcases ss with _ | ⟨s0, rest⟩
    · exact absurd rfl hne
    · simp [validate, hmiss, hss, hval]
  · intro env fuel t raw merged hraw hres hok
    unfold load_flow
    simp only [hraw, hres, hok]

/-- C10 witness: in `failSkipFlow`, failing out of `a` lands on `c` (through
the skip stage `s`), yet `c` is not in `valid_transitions("a")`. -/
theorem fail_skip_asymmetry_witness :
    failSkipFlow.next_status "a" false = some "c" ∧
      "c" ∉ failSkipFlow.valid_transitions "a" :=
  fail_skip_asymmetry failSkipFlow "a"
    { name := "a", description := "", next := some "b", fail := some "s" }
    "s" "c" { name := "s", description := "", next := some "c", skip := true }
    rfl rfl rfl rfl rfl
    (by simp [TaskFlow.resolveSkip, resolveSkipAux_some, failSkipFlow,
      TaskFlow.get, alookup])
    (by decide) (by decide)
    (by simp [TaskFlow.resolveSkip, resolveSkipAux_some, failSkipFlow,
      TaskFlow.get, alookup])

/-- `find?` over the conditional row update used by the SQL UPDATE: the first
row matching the id is found, updated. -/
theorem find?_update_map (l : List TaskRow) (task_id : String)
    (upd : TaskRow → TaskRow) (hid : ∀ t, (upd t).id = t.id) (task : TaskRow)
    (h : l.find? (fun t => t.id == task_id) = some task) :
    (l.map (fun t => if t.id == task_id then upd t else t)).find?
        (fun t => t.id == task_id) = some (upd task) := by
  induction l with
  | nil => simp at h
  | cons t rest ih =>
    cases ht : (t.id == task_id) with
    | true =>
      simp only [List.find?, ht] at h
      injection h with h
      subst h
      simp [List.find?, ht, hid]
    | false =>
      simp only [List.find?, ht] at h
      rw [List.map_cons, if_neg (by simp [ht])]
      simp only [List.find?, ht]
      exact ih h

/-- C9: for every existing task whose flow loads, `transition_task` always
succeeds and updates the task's status to the target — whether or not the
target is in `valid_transitions` of the current status — and appends exactly
one audit record whose `valid` flag is 1 when the target is a member of
`valid_transitions` and 0 otherwise; invalid transitions are never blocked
or raised as errors. -/
theorem transition_task_spec (flows : List (String × TaskFlow)) (db : DBState)
    (task_id to_status : String) (agent : Option String) (task : TaskRow)
    (flow : TaskFlow)
    (htask : get_task db task_id = some task)
    (hflow : alookup task.task_type flows = some flow) :
    ∃ db', transition_task flows db task_id to_status agent = .ok db' ∧
      get_task db' task_id =
        some { task with status := to_status,
                         assigned_to := agent <|> task.assigned_to } ∧
      db'.transitions = db.transitions ++
        [{ task_id := task_id, from_status := task.status,
           to_status := to_status, agent := agent,
           valid := if to_status ∈ flow.valid_transitions task.status
                    then 1 else 0 }] := by
  unfold transition_task
  simp only [htask, hflow]
  refine ⟨_, rfl, ?_, rfl⟩
  unfold get_task at htask ⊢
  exact find?_update_map db.tasks task_id
    (fun t => { t with status := to_status, assigned_to := agent <|> t.assigned_to })
    (fun t => rfl) task htask

/-- C9 witness: moving task T1 from `open` straight to `closed` — not a
valid transition of the base flow — still succeeds, updates the status and
assignee, and logs one record whose valid flag reflects membership in
`valid_transitions("open")`. -/
theorem transition_task_spec_witness :
    ∃ db', transition_task flowsW dbW "T1" "closed" (some "agent7") = .ok db' ∧
      get_task db' "T1" =
        some { id := "T1", project_id := "P1", task_type := "bugfix",
               description := "d", status := "closed",
               assigned_to := some "agent7" } ∧
      db'.transitions = dbW.transitions ++
        [{ task_id := "T1", from_status := "open", to_status := "closed",
           agent := some "agent7",
           valid := if "closed" ∈ base.valid_transitions "open"
                    then 1 else 0 }] :=
  transition_task_spec flowsW dbW "T1" "closed" (some "agent7")
    { id := "T1", project_id := "P1", task_type := "bugfix", description := "d" }
    base rfl rfl

end MinionTasks
